import Mathlib

/-
Verification of the `deploy` package (deployer.go): a shallow embedding of the
deployment pipeline. The Nomad scheduler client (`api.Client`) is an external
collaborator; it is modelled by an environment `Env` of response functions.
The two polling loops of the source are embedded with an explicit fuel
parameter (`none` = fuel exhausted, i.e. the loop is still running).
Go errors are modelled by their message strings.
-/

namespace Deploy

abbrev Err := String

deriving instance DecidableEq for Except

/-- Modelled from the spec (section 3): one service's parameters within one
datacenter. The defining source file of ServiceConfig is not among the
sources; the fields are those read by deployer.go (the remaining spec fields
cpu/memory/environment/arguments/volumes are never read by the pipeline and
are omitted). Go zero values: empty strings and 0. -/
structure ServiceConfig where
  Image : String
  Count : Int
  HostGroup : String
  Node : String
  DcRegion : String
deriving DecidableEq

/-- Modelled from the spec (section 3): a datacenter's configuration, owning a
mapping of service name to ServiceConfig (embedded as an association list;
`Services` behaves as a map whose entries are shared by reference, per the
spec's "later consumers see the deployed image"). -/
structure DcConfig where
  Region : String
  Dc : String
  Services : List (String × ServiceConfig)
deriving DecidableEq

/-- Embeds api.Constraint as built by api.NewConstraint(lTarget, operand, rTarget). -/
structure Constraint where
  LTarget : String
  Operand : String
  RTarget : String
deriving DecidableEq

/-- Embeds api.NewConstraint. -/
def NewConstraint (l op r : String) : Constraint := ⟨l, op, r⟩

/-- Embeds api.Task restricted to the fields deployer.go touches: the task
name and its driver config map (only the "image" key is ever written). -/
structure Task where
  Name : String
  Config : List (String × String)
deriving DecidableEq

/-- Embeds api.TaskGroup restricted to the fields deployer.go touches.
`Name` embeds the dereferenced *string, `Count` the *int (none = nil). -/
structure TaskGroup where
  Name : String
  Count : Option Int
  Tasks : List Task
deriving DecidableEq

/-- Embeds api.Job restricted to the fields deployer.go touches. -/
structure Job where
  Region : Option String
  Datacenters : List String
  Constraints : List Constraint
  TaskGroups : List TaskGroup
deriving DecidableEq

/-- Embeds api.Job.AddDatacenter (appends to the job's datacenter list). -/
def addDatacenter (j : Job) (dc : String) : Job :=
  { j with Datacenters := j.Datacenters ++ [dc] }

/-- Embeds api.Job.Constrain (appends to the job-level constraint list). -/
def constrain (j : Job) (c : Constraint) : Job :=
  { j with Constraints := j.Constraints ++ [c] }

/-- Embeds api.Evaluation restricted to the fields getDeploymentID reads. -/
structure Evaluation where
  DeploymentID : String
  Status : String
  «Type» : String
deriving DecidableEq

/-- Embeds api.Deployment restricted to the fields status reads. -/
structure Deployment where
  Status : String
  StatusDescription : String
deriving DecidableEq

/-- Embeds api.QueryMeta restricted to the LastIndex field. -/
structure QueryMeta where
  LastIndex : Nat
deriving DecidableEq

/-- Embeds api.QueryOptions restricted to the fields status sets:
WaitIndex (uint64), AllowStale, WaitTime (here counted in seconds; the
source sets time.Duration(5 * time.Second)). -/
structure QueryOptions where
  WaitIndex : Nat
  AllowStale : Bool
  WaitTime : Nat
deriving DecidableEq

/-- Embeds api.JobPlanResponse restricted to JobModifyIndex (uint64). -/
structure PlanResp where
  JobModifyIndex : Nat
deriving DecidableEq

/-- Embeds api.JobRegisterResponse restricted to EvalID. -/
structure RegisterResp where
  EvalID : String
deriving DecidableEq

/-- Embeds api.TaskEvent restricted to the five error fields status reads. -/
structure TaskEvent where
  DriverError : String
  DownloadError : String
  ValidationError : String
  SetupError : String
  VaultError : String
deriving DecidableEq

/-- Embeds api.TaskState restricted to its event list. -/
structure TaskState where
  Events : List TaskEvent
deriving DecidableEq

/-- Embeds api.Allocation restricted to its TaskStates map
(map[string]*TaskState, embedded as an association list; Go's map iteration
order is fixed to list order in this embedding). -/
structure Allocation where
  TaskStates : List (String × TaskState)
deriving DecidableEq

/-- Embeds the Deployer struct of deployer.go. The `cli *api.Client` field is
not carried: the client is the environment `Env` against which the steps run.
`job` starts as the Go zero job (the pipeline never reads it before
loadServiceConfig stores the parsed job). -/
structure Deployer where
  root : String
  dc : String
  service : String
  image : String
  address : String
  config : DcConfig
  job : Job
  jobModifyIndex : Nat
  jobEvalID : String
  jobDeploymentID : String
deriving DecidableEq

/-- Environment: the scheduler-side collaborators consumed by the pipeline.
`parseFile` embeds jobspec.ParseFile; `newClient` embeds api.NewClient after
ClientConfig(dc, address, false); `evalInfo n` is the response to the n-th
Evaluations().Info fetch; `deploymentInfo n q` is the response to the n-th
Deployments().Info fetch, given the query options the deployer passed;
`allocations` is the response to Deployments().Allocations. -/
structure Env where
  parseFile : String → Except Err Job
  newClient : String → String → Except Err Unit
  validateJob : Job → Except Err Unit
  planJob : Job → Except Err PlanResp
  enforceRegister : Job → Nat → Except Err RegisterResp
  evalInfo : Nat → Except Err Evaluation
  deploymentInfo : Nat → QueryOptions → Except Err (Deployment × QueryMeta)
  allocations : Except Err (List Allocation)

/-- Embeds nomadStructs.JobTypeService. -/
def JobTypeService : String := "service"

/-- Embeds nomadStructs.DeploymentStatusRunning. -/
def DeploymentStatusRunning : String := "running"

/-- Embeds nomadStructs.DeploymentStatusSuccessful. -/
def DeploymentStatusSuccessful : String := "successful"

/-- Embeds Deployer.checkServiceConfig. The message string renders Go's
fmt.Errorf("service %d not found in datacenter config", d.service) with a
string operand: fmt renders a bad verb as the artifact %!d(string=value). -/
def checkServiceConfig (d : Deployer) : Except Err Unit :=
  match List.lookup d.service d.config.Services with
  | none => .error ("service " ++ "%!d(string=" ++ d.service ++ ")" ++ " not found in datacenter config")
  | some _ => .ok ()

/-- Path "<root>/nomad/service/<service>.nomad" tried first by loadServiceConfig. -/
def servicePath (d : Deployer) : String :=
  d.root ++ "/nomad/service/" ++ d.service ++ ".nomad"

/-- Path "<root>/nomad/system/<service>.nomad" tried as the fallback. -/
def systemPath (d : Deployer) : String :=
  d.root ++ "/nomad/system/" ++ d.service ++ ".nomad"

/-- Embeds Deployer.loadServiceConfig: parse the service job-set file, fall
back to the system job-set file on error, store the job, then run
checkServiceConfig. -/
def loadServiceConfig (env : Env) (d : Deployer) : Except Err Deployer :=
  match env.parseFile (servicePath d) with
  | .ok job =>
    match checkServiceConfig { d with job := job } with
    | .error e => .error e
    | .ok _ => .ok { d with job := job }
  | .error _ =>
    match env.parseFile (systemPath d) with
    | .error e => .error e
    | .ok job =>
      match checkServiceConfig { d with job := job } with
      | .error e => .error e
      | .ok _ => .ok { d with job := job }

/-- Embeds Deployer.connect (client construction; the resulting client is the
environment itself). -/
def connect (env : Env) (d : Deployer) : Except Err Deployer :=
  match env.newClient d.config.Dc d.address with
  | .error e => .error e
  | .ok _ => .ok d

/-- Go map read d.config.Services[d.service]: the entry, or the zero value
when absent. -/
def lookupService (cfg : DcConfig) (name : String) : ServiceConfig :=
  (List.lookup name cfg.Services).getD ⟨"", 0, "", "", ""⟩

/-- Go map assignment m["image"] = v on a task config: replace the entry if
the key is present, append it otherwise. -/
def mapSet (m : List (String × String)) (k v : String) : List (String × String) :=
  if (List.lookup k m).isSome then m.map (fun p => if p.1 = k then (k, v) else p)
  else m ++ [(k, v)]

/-- Embeds the per-task body of validate's inner loop: tasks whose name
equals the service name get their config "image" overwritten. -/
def mergeTask (service image : String) (ta : Task) : Task :=
  if ta.Name = service then { ta with Config := mapSet ta.Config "image" image } else ta

/-- Embeds the per-task-group body of validate's loop: the group whose name
equals the service name gets the count override (only when count > 0) and the
per-task image overwrite. -/
def mergeTaskGroup (service image : String) (count : Int) (tg : TaskGroup) : TaskGroup :=
  if tg.Name = service then
    { tg with
      Count := if count > 0 then some count else tg.Count
      Tasks := tg.Tasks.map (mergeTask service image) }
  else tg

/-- True exactly when validate's inner loops reach the statement
s.Image = d.image for this group: the group is named after the service and
contains a task named after the service. -/
def groupTouchesImage (service : String) (tg : TaskGroup) : Bool :=
  tg.Name == service && tg.Tasks.any (fun ta => ta.Name == service)

/-- ServiceConfig image write-back s.Image = d.image: the datacenter config's
entry for the service is updated in place (the Services map holds the entry
by reference, per the spec). -/
def setServiceImage (cfg : DcConfig) (name image : String) : DcConfig :=
  { cfg with
    Services := cfg.Services.map (fun p => if p.1 = name then (p.1, { p.2 with Image := image }) else p) }

/-- Embeds the merging part of Deployer.validate (everything before the
Jobs().Validate call): set the region, append the datacenter, add one
job-level constraint per non-empty placement field, apply the task-group
overrides, and write the deployed image back into the ServiceConfig. -/
def mergeJob (d : Deployer) : Job × DcConfig :=
  let s := lookupService d.config d.service
  let j0 := { d.job with Region := some d.config.Region }
  let j1 := addDatacenter j0 d.config.Dc
  let j2 := if s.DcRegion ≠ "" then constrain j1 (NewConstraint "${meta.dc_region}" "=" s.DcRegion) else j1
  let j3 := if s.HostGroup ≠ "" then constrain j2 (NewConstraint "${meta.hostgroup}" "=" s.HostGroup) else j2
  let j4 := if s.Node ≠ "" then constrain j3 (NewConstraint "${meta.node}" "=" s.Node) else j3
  let j5 := { j4 with TaskGroups := j4.TaskGroups.map (mergeTaskGroup d.service d.image s.Count) }
  let cfg := if j4.TaskGroups.any (groupTouchesImage d.service) then setServiceImage d.config d.service d.image
             else d.config
  (j5, cfg)

/-- Embeds Deployer.validate: merge, then submit to Jobs().Validate. -/
def validate (env : Env) (d : Deployer) : Except Err Deployer :=
  let m := mergeJob d
  match env.validateJob m.1 with
  | .error e => .error e
  | .ok _ => .ok { d with job := m.1, config := m.2 }

/-- Embeds Deployer.plan: dry-run Jobs().Plan and capture JobModifyIndex. -/
def plan (env : Env) (d : Deployer) : Except Err Deployer :=
  match env.planJob d.job with
  | .error e => .error e
  | .ok jp => .ok { d with jobModifyIndex := jp.JobModifyIndex }

/-- Embeds Deployer.getDeploymentID, the evaluation-polling loop: the n-th
fetch errors (surfaced), or carries a deployment identifier (captured), or is
complete for a non-service job type (stop without capture); otherwise sleep
one second and refetch. Fuel bounds the embedding only: `none` means the loop
is still running after `fuel` fetches. On success the second component is the
number of one-second sleeps executed (= the index of the stopping fetch). -/
def getDeploymentID (evalInfo : Nat → Except Err Evaluation) :
    Nat → Nat → Deployer → Option (Except Err (Deployer × Nat))
  | 0, _, _ => none
  | fuel + 1, n, d =>
    match evalInfo n with
    | .error e => some (.error e)
    | .ok ev =>
      if ev.DeploymentID ≠ "" then some (.ok ({ d with jobDeploymentID := ev.DeploymentID }, n))
      else if ev.Status = "complete" ∧ ev.«Type» ≠ JobTypeService then some (.ok (d, n))
      else getDeploymentID evalInfo fuel (n + 1) d

/-- Embeds Deployer.register: Jobs().EnforceRegister with the job and the
stored jobModifyIndex, then capture EvalID and run getDeploymentID. -/
def register (env : Env) (fuel : Nat) (d : Deployer) : Option (Except Err Deployer) :=
  match env.enforceRegister d.job d.jobModifyIndex with
  | .error e => some (.error e)
  | .ok jr =>
    match getDeploymentID env.evalInfo fuel 0 { d with jobEvalID := jr.EvalID } with
    | none => none
    | some (.error e) => some (.error e)
    | some (.ok (d', _)) => some (.ok d')

/-- Modelled from the spec: `warn` (referenced by status but not among the
sources) renders one diagnostic message for display; modelled as the identity
on the message text. -/
def warn (s : String) : String := s

/-- Condition of status's diagnostic loop: the event carries a non-empty
driver/download/validation/setup/vault error field. -/
def eventHasError (e : TaskEvent) : Bool :=
  e.DriverError != "" || e.DownloadError != "" || e.ValidationError != "" ||
    e.SetupError != "" || e.VaultError != ""

/-- Rendering of one qualifying event: fmt.Printf("%s%s%s%s%s", warn ...). -/
def eventDiag (e : TaskEvent) : String :=
  warn e.DriverError ++ warn e.DownloadError ++ warn e.ValidationError ++
    warn e.SetupError ++ warn e.VaultError

/-- Concatenation of a list of printed fragments, in order. -/
def concatAll : List String → String
  | [] => ""
  | s :: rest => s ++ concatAll rest

/-- Diagnostics printed for one task state: its qualifying events, in order. -/
def taskStateDiag (ts : TaskState) : String :=
  concatAll (ts.Events.map (fun e => if eventHasError e then eventDiag e else ""))

/-- Diagnostics printed for one allocation: all its task states. -/
def allocDiag (a : Allocation) : String :=
  concatAll (a.TaskStates.map (fun p => taskStateDiag p.2))

/-- Diagnostics printed for the whole allocation list of the deployment. -/
def allocsDiag (al : List Allocation) : String :=
  concatAll (al.map allocDiag)

/-- Output printed by status's failure branch: the gathered diagnostics when
the allocation fetch succeeds, nothing when it errors (the fetch failure is
swallowed). -/
def failureDiagOutput (env : Env) : String :=
  match env.allocations with
  | .error _ => ""
  | .ok al => allocsDiag al

/-- Embeds the loop of Deployer.status: fetch the deployment with the current
query options, advance WaitIndex to meta.LastIndex, continue while running,
stop on successful, otherwise print diagnostics and fail with
"deployment failed status: <status> <description>". The first component of a
successful result is the text printed to standard output. Fuel bounds the
embedding only (`none` = still polling after `fuel` fetches). -/
def statusLoop (env : Env) : Nat → Nat → QueryOptions → Deployer → Option (String × Except Err Deployer)
  | 0, _, _, _ => none
  | fuel + 1, n, q, d =>
    match env.deploymentInfo n q with
    | .error e => some ("", .error e)
    | .ok (dep, meta) =>
      let q' := { q with WaitIndex := meta.LastIndex }
      if dep.Status = DeploymentStatusRunning then statusLoop env fuel (n + 1) q' d
      else if dep.Status = DeploymentStatusSuccessful then some ("", .ok d)
      else some (failureDiagOutput env,
        .error ("deployment failed status: " ++ dep.Status ++ " " ++ dep.StatusDescription))

/-- Embeds Deployer.status: a no-op success when no deployment identifier was
captured; otherwise the long-poll loop starting from
QueryOptions{WaitIndex: 1, AllowStale: true, WaitTime: 5s}. -/
def status (env : Env) (fuel : Nat) (d : Deployer) : Option (String × Except Err Deployer) :=
  if d.jobDeploymentID = "" then some ("", .ok d)
  else statusLoop env fuel 0 ⟨1, true, 5⟩ d

/-- Ghost observer of statusLoop: the sequence of query options passed to the
successive Deployments().Info calls (same recursion as statusLoop). -/
def statusLoopQueries (env : Env) : Nat → Nat → QueryOptions → List QueryOptions
  | 0, _, _ => []
  | fuel + 1, n, q =>
    q :: match env.deploymentInfo n q with
    | .error _ => []
    | .ok (dep, meta) =>
      let q' := { q with WaitIndex := meta.LastIndex }
      if dep.Status = DeploymentStatusRunning then statusLoopQueries env fuel (n + 1) q'
      else []

/-- Ghost observer of status: the deployment queries it issues. -/
def statusQueries (env : Env) (fuel : Nat) (d : Deployer) : List QueryOptions :=
  if d.jobDeploymentID = "" then [] else statusLoopQueries env fuel 0 ⟨1, true, 5⟩

/-- Status as a pipeline step (the printed output is a side effect, not part
of the step's returned value). -/
def statusStep (env : Env) (fuel : Nat) (d : Deployer) : Option (Except Err Deployer) :=
  (status env fuel d).map (fun p => p.2)

/-- Names of the six pipeline steps, in the order Go() lists them. -/
inductive StepName where
  | load
  | connect
  | validate
  | plan
  | register
  | status
deriving DecidableEq

/-- Type of one pipeline step (none = a polling step ran out of fuel). -/
abbrev StepFn := Deployer → Option (Except Err Deployer)

/-- Modelled from the spec: `runSteps` (called by Go() but not among the
sources) runs the steps fail-fast sequentially — each step runs only if all
prior steps succeeded, the first failing step's error is returned immediately
and no later step runs. The Option layer threads the fuel artifact of the
polling steps. -/
def runSteps : List StepFn → Deployer → Option (Except Err Deployer)
  | [], d => some (.ok d)
  | f :: fs, d =>
    match f d with
    | none => none
    | some (.error e) => some (.error e)
    | some (.ok d') => runSteps fs d'

/-- The six steps of Go(), named, in source order. -/
def goStepList (env : Env) (fr fs : Nat) : List (StepName × StepFn) :=
  [(.load, fun d => some (loadServiceConfig env d)),
   (.connect, fun d => some (connect env d)),
   (.validate, fun d => some (validate env d)),
   (.plan, fun d => some (plan env d)),
   (.register, fun d => register env fr d),
   (.status, fun d => statusStep env fs d)]

/-- Embeds Deployer.Go: runSteps over the six steps in source order.
`fr` and `fs` are the fuels of the two polling loops. -/
def Go (env : Env) (fr fs : Nat) (d : Deployer) : Option (Except Err Deployer) :=
  runSteps ((goStepList env fr fs).map Prod.snd) d

/-- Ghost observer of runSteps: also returns the names of the steps that were
started, in order (a failing or fuel-starved step is the last one started). -/
def runTrace : List (StepName × StepFn) → Deployer → List StepName × Option (Except Err Deployer)
  | [], d => ([], some (.ok d))
  | (n, f) :: fs, d =>
    match f d with
    | none => ([n], none)
    | some (.error e) => ([n], some (.error e))
    | some (.ok d') =>
      let r := runTrace fs d'
      (n :: r.1, r.2)

/-- The six step names in Go()'s order. -/
def goNames : List StepName :=
  [.load, .connect, .validate, .plan, .register, .status]

/-- Scheduler-side contract of Jobs().EnforceRegister as documented at the
call site in deployer.go: the job is registered only if the passed
JobModifyIndex matches the scheduler's current index for the job; otherwise
the scheduler's error is returned. -/
def enforceRegisterSem (cur : Nat) (rr : RegisterResp) (e : Err) : Job → Nat → Except Err RegisterResp :=
  fun _ idx => if idx = cur then .ok rr else .error e

/-- Stop condition of the evaluation-polling loop on one fetched response. -/
def evalStops : Except Err Evaluation → Prop
  | .error _ => True
  | .ok ev => ev.DeploymentID ≠ "" ∨ (ev.Status = "complete" ∧ ev.«Type» ≠ JobTypeService)

instance instDecidableEvalStops : (r : Except Err Evaluation) → Decidable (evalStops r)
  | .error _ => .isTrue trivial
  | .ok ev =>
    inferInstanceAs (Decidable (ev.DeploymentID ≠ "" ∨ (ev.Status = "complete" ∧ ev.«Type» ≠ JobTypeService)))

/-- Result of the evaluation-polling loop at its stopping fetch `n`: the
fetch error surfaced, or the deployment identifier captured, or the deployer
unchanged; `n` also counts the one-second sleeps executed before it. -/
def evalResultAt (r : Except Err Evaluation) (d : Deployer) (n : Nat) : Except Err (Deployer × Nat) :=
  match r with
  | .error e => .error e
  | .ok ev =>
    if ev.DeploymentID ≠ "" then .ok ({ d with jobDeploymentID := ev.DeploymentID }, n)
    else .ok (d, n)

/-- The Go zero value of a Job. -/
def jobZero : Job := ⟨none, [], [], []⟩

/-- The Go zero value of a ServiceConfig. -/
def scZero : ServiceConfig := ⟨"", 0, "", "", ""⟩

/-- A concrete deployer for service "svc" in datacenter "dc1". -/
def dAny : Deployer :=
  ⟨"/r", "dc1", "svc", "img", "addr", ⟨"r1", "dc1", [("svc", scZero)]⟩, jobZero, 0, "", ""⟩

/-- A concrete environment where every call succeeds. -/
def envAllOk : Env where
  parseFile := fun _ => .ok jobZero
  newClient := fun _ _ => .ok ()
  validateJob := fun _ => .ok ()
  planJob := fun _ => .ok ⟨1⟩
  enforceRegister := fun _ _ => .ok ⟨"eval-1"⟩
  evalInfo := fun _ => .ok ⟨"dep-1", "complete", "service"⟩
  deploymentInfo := fun _ _ => .ok (⟨"successful", ""⟩, ⟨2⟩)
  allocations := .ok []

/-- Concrete environment whose scheduler holds current modify index 9 and
whose plan returns index 7. -/
def envC1 : Env :=
  { envAllOk with
    planJob := fun _ => .ok ⟨7⟩
    enforceRegister := enforceRegisterSem 9 ⟨"eval-2"⟩ "conflict" }

/-- Concrete deployer that has captured deployment identifier "dep-1". -/
def dDep : Deployer := { dAny with jobDeploymentID := "dep-1" }

/-- Concrete environment with a terminal "failed" deployment and one
allocation event carrying the driver error "boom". -/
def envC3 : Env :=
  { envAllOk with
    deploymentInfo := fun _ _ => .ok (⟨"failed", "rolling back"⟩, ⟨10⟩)
    allocations := .ok [⟨[("task1", ⟨[⟨"boom", "", "", "", ""⟩]⟩)]⟩] }

/-- Concrete deployer whose job has no task group named after the service
("web" vs service "svc"), with hostGroup "app" configured. -/
def dC4 : Deployer :=
  ⟨"/r", "dc1", "svc", "img", "addr", ⟨"r1", "dc1", [("svc", ⟨"", 0, "app", "", ""⟩)]⟩,
    ⟨none, [], [], [⟨"web", none, []⟩]⟩, 0, "", ""⟩

/-- Concrete deployer deploying image "new" over configured image "old",
whose job has no task group named after the service (only "web", though that
group contains a task named "svc"). -/
def dC5 : Deployer :=
  ⟨"/r", "dc1", "svc", "new", "addr", ⟨"r1", "dc1", [("svc", ⟨"old", 0, "", "", ""⟩)]⟩,
    ⟨none, [], [], [⟨"web", none, [⟨"svc", []⟩]⟩]⟩, 0, "", ""⟩

/-- Concrete deployer deploying image "new" over configured image "old",
whose job has the conventional group "svc" containing task "svc". -/
def dC5w : Deployer :=
  ⟨"/r", "dc1", "svc", "new", "addr", ⟨"r1", "dc1", [("svc", ⟨"old", 0, "", "", ""⟩)]⟩,
    ⟨none, [], [], [⟨"svc", none, [⟨"svc", [("image", "old")]⟩]⟩]⟩, 0, "", ""⟩

/-- Concrete evaluation fetch sequence: two fetches with no deployment
identifier and a non-terminal status, then one carrying identifier "dep1". -/
def evalInfoC6 : Nat → Except Err Evaluation := fun n =>
  if n < 2 then .ok ⟨"", "pending", "service"⟩ else .ok ⟨"dep1", "complete", "service"⟩

/-- Concrete environment whose deployment reads are running, running,
successful, with advancing LastIndex values 40, 41, 50. -/
def envC7 : Env :=
  { envAllOk with
    deploymentInfo := fun n _ =>
      if n = 0 then .ok (⟨"running", "d0"⟩, ⟨40⟩)
      else if n = 1 then .ok (⟨"running", "d1"⟩, ⟨41⟩)
      else .ok (⟨"successful", "d2"⟩, ⟨50⟩) }

/-- Concrete deployer with configured count 3 and a job group "svc" whose
file count is 5. -/
def dC8 : Deployer :=
  ⟨"/r", "dc1", "svc", "img", "addr", ⟨"r1", "dc1", [("svc", ⟨"", 3, "", "", ""⟩)]⟩,
    ⟨none, [], [], [⟨"svc", some 5, []⟩]⟩, 0, "", ""⟩

/-- Concrete environment where only the service job-set file for "svc" exists. -/
def envC9 : Env :=
  { envAllOk with
    parseFile := fun p => if p = "/r/nomad/service/svc.nomad" then .ok jobZero else .error "open failed" }

/-- Concrete deployer whose datacenter config contains no services. -/
def dC10 : Deployer := { dAny with config := ⟨"r1", "dc1", []⟩ }

/-- One unfolding of the status loop. -/
theorem statusLoop_succ (env : Env) (fuel n : Nat) (q : QueryOptions) (d : Deployer) :
    statusLoop env (fuel + 1) n q d =
      match env.deploymentInfo n q with
      | .error e => some ("", .error e)
      | .ok (dep, meta) =>
        let q' := { q with WaitIndex := meta.LastIndex }
        if dep.Status = DeploymentStatusRunning then statusLoop env fuel (n + 1) q' d
        else if dep.Status = DeploymentStatusSuccessful then some ("", .ok d)
        else some (failureDiagOutput env,
          .error ("deployment failed status: " ++ dep.Status ++ " " ++ dep.StatusDescription)) := rfl

/-- A fetch that errors ends the status loop with that error. -/
theorem statusLoop_error_step (env : Env) (fuel n : Nat) (q : QueryOptions) (d : Deployer)
    (e : Err) (h : env.deploymentInfo n q = .error e) :
    statusLoop env (fuel + 1) n q d = some ("", .error e) := by
  rw [statusLoop_succ, h]

/-- A running read continues the loop with the cursor advanced to LastIndex. -/
theorem statusLoop_running_step (env : Env) (fuel n : Nat) (q : QueryOptions) (d : Deployer)
    (ds : String) (li : Nat)
    (h : env.deploymentInfo n q = .ok (⟨DeploymentStatusRunning, ds⟩, ⟨li⟩)) :
    statusLoop env (fuel + 1) n q d = statusLoop env fuel (n + 1) { q with WaitIndex := li } d := by
  rw [statusLoop_succ, h]
  simp

/-- A successful read ends the status loop with success. -/
theorem statusLoop_success_step (env : Env) (fuel n : Nat) (q : QueryOptions) (d : Deployer)
    (ds : String) (li : Nat)
    (h : env.deploymentInfo n q = .ok (⟨DeploymentStatusSuccessful, ds⟩, ⟨li⟩)) :
    statusLoop env (fuel + 1) n q d = some ("", .ok d) := by
  rw [statusLoop_succ, h]
  simp [DeploymentStatusSuccessful, DeploymentStatusRunning]

/-- Any other terminal read ends the status loop with the failure error and
the printed diagnostics. -/
theorem statusLoop_fail_step (env : Env) (fuel n : Nat) (q : QueryOptions) (d : Deployer)
    (st ds : String) (li : Nat)
    (h : env.deploymentInfo n q = .ok (⟨st, ds⟩, ⟨li⟩))
    (hr : st ≠ DeploymentStatusRunning) (hs : st ≠ DeploymentStatusSuccessful) :
    statusLoop env (fuel + 1) n q d =
      some (failureDiagOutput env, .error ("deployment failed status: " ++ st ++ " " ++ ds)) := by
  rw [statusLoop_succ, h]
  simp [hr, hs]

/-- One unfolding of the status-loop query observer. -/
theorem statusLoopQueries_succ (env : Env) (fuel n : Nat) (q : QueryOptions) :
    statusLoopQueries env (fuel + 1) n q =
      q :: match env.deploymentInfo n q with
      | .error _ => []
      | .ok (dep, meta) =>
        let q' := { q with WaitIndex := meta.LastIndex }
        if dep.Status = DeploymentStatusRunning then statusLoopQueries env fuel (n + 1) q'
        else [] := rfl

/-- A running read records the query and continues with the advanced cursor. -/
theorem statusLoopQueries_running_step (env : Env) (fuel n : Nat) (q : QueryOptions)
    (ds : String) (li : Nat)
    (h : env.deploymentInfo n q = .ok (⟨DeploymentStatusRunning, ds⟩, ⟨li⟩)) :
    statusLoopQueries env (fuel + 1) n q =
      q :: statusLoopQueries env fuel (n + 1) { q with WaitIndex := li } := by
  rw [statusLoopQueries_succ, h]
  simp

/-- A non-running read records the query and stops. -/
theorem statusLoopQueries_stop_step (env : Env) (fuel n : Nat) (q : QueryOptions)
    (st ds : String) (li : Nat)
    (h : env.deploymentInfo n q = .ok (⟨st, ds⟩, ⟨li⟩)) (hr : st ≠ DeploymentStatusRunning) :
    statusLoopQueries env (fuel + 1) n q = [q] := by
  rw [statusLoopQueries_succ, h]
  simp [hr]

/-- Unfolding of List.lookup on a cons cell, with a propositional test. -/
theorem lookup_cons {β : Type} (k a : String) (b : β) (l : List (String × β)) :
    List.lookup k ((a, b) :: l) = if k = a then some b else List.lookup k l := by
  by_cases h : k = a
  · simp [List.lookup, h]
  · have hb : (k == a) = false := beq_eq_false_iff_ne.mpr h
    simp [List.lookup, hb, h]

/-- Lookup after replacing the entry at key `k` with `(k, v)`. -/
theorem lookup_map_replace (k v : String) :
    ∀ t : List (String × String), (List.lookup k t).isSome = true →
      List.lookup k (t.map (fun p => if p.1 = k then (k, v) else p)) = some v := by
  intro t
  induction t with
  | nil => intro h; simp [List.lookup] at h
  | cons p rest ih =>
    obtain ⟨a, b⟩ := p
    intro h
    rw [lookup_cons] at h
    by_cases hak : a = k
    · subst hak
      simp [lookup_cons]
    · have hka : ¬ k = a := fun hh => hak hh.symm
      rw [if_neg hka] at h
      simp only [List.map_cons]
      simp [lookup_cons, hak, hka]
      exact ih h

/-- Lookup skips an appended tail only after exhausting the front list. -/
theorem lookup_append_right {β : Type} (k : String) :
    ∀ m l : List (String × β), List.lookup k m = none →
      List.lookup k (m ++ l) = List.lookup k l := by
  intro m
  induction m with
  | nil => intro l _; rfl
  | cons p rest ih =>
    obtain ⟨a, b⟩ := p
    intro l h
    rw [lookup_cons] at h
    by_cases hka : k = a
    · rw [if_pos hka] at h; cases h
    · rw [if_neg hka] at h
      rw [List.cons_append, lookup_cons, if_neg hka]
      exact ih l h

/-- Go map assignment then read: m["image"] = v makes lookup "image" return v. -/
theorem lookup_mapSet (m : List (String × String)) (k v : String) :
    List.lookup k (mapSet m k v) = some v := by
  unfold mapSet
  by_cases h : (List.lookup k m).isSome = true
  · rw [if_pos h]
    exact lookup_map_replace k v m h
  · rw [if_neg h]
    have hnone : List.lookup k m = none := by
      cases hres : List.lookup k m with
      | none => rfl
      | some b => rw [hres] at h; simp at h
    rw [lookup_append_right k m _ hnone]
    simp [List.lookup]

/-- Lookup through the in-place ServiceConfig image update. -/
theorem lookup_setServiceImage (cfg : DcConfig) (name img k : String) :
    List.lookup k (setServiceImage cfg name img).Services =
      (List.lookup k cfg.Services).map (fun s => if k = name then { s with Image := img } else s) := by
  show List.lookup k (cfg.Services.map _) = _
  induction cfg.Services with
  | nil => rfl
  | cons p rest ih =>
    obtain ⟨a, b⟩ := p
    simp only [List.map_cons]
    by_cases han : a = name
    · subst han
      by_cases hka : k = a
      · subst hka
        simp [lookup_cons]
      · simpa [lookup_cons, hka] using ih
    · by_cases hka : k = a
      · subst hka
        have hkn : ¬ k = name := han
        simp [lookup_cons, hkn, han]
      · simpa [lookup_cons, hka, han] using ih

/-- Every member's text is a contiguous part of the concatenation. -/
theorem mem_infix_concatAll {s : String} {l : List String} (h : s ∈ l) :
    s.toList <:+: (concatAll l).toList := by
  induction l with
  | nil => cases h
  | cons a t ih =>
    rcases List.mem_cons.mp h with rfl | hmem
    · exact ⟨[], (concatAll t).toList, by simp [concatAll]⟩
    · obtain ⟨u, v, huv⟩ := ih hmem
      refine ⟨a.toList ++ u, v, ?_⟩
      have hassoc : a.toList ++ u ++ s.toList ++ v = a.toList ++ (u ++ s.toList ++ v) := by
        simp [List.append_assoc]
      rw [hassoc, huv]
      simp [concatAll]

/-- The driver error text opens the rendering of its event. -/
theorem driver_infix_eventDiag (e : TaskEvent) :
    e.DriverError.toList <:+: (eventDiag e).toList := by
  refine ⟨[], (warn e.DownloadError ++ warn e.ValidationError ++ warn e.SetupError ++
    warn e.VaultError).toList, ?_⟩
  simp [eventDiag, warn]

/-- The traced run returns the same result as runSteps over the bare steps. -/
theorem runTrace_result (l : List (StepName × StepFn)) :
    ∀ d : Deployer, (runTrace l d).2 = runSteps (l.map Prod.snd) d := by
  induction l with
  | nil => intro d; rfl
  | cons p rest ih =>
    obtain ⟨n, f⟩ := p
    intro d
    simp only [runTrace, runSteps, List.map_cons]
    cases hf : f d with
    | none => rfl
    | some r =>
      cases r with
      | error e => rfl
      | ok d' => simpa using ih d'

/-- Either every step succeeds and the trace lists all step names, or there
is a first failing (or fuel-starved) step k: all steps before it succeed, its
own outcome is not a success, that outcome is the run's result, and the
trace stops right after it. -/
theorem runTrace_split (l : List (StepName × StepFn)) :
    ∀ d : Deployer,
      ((∃ d', runSteps (l.map Prod.snd) d = some (.ok d')) ∧ (runTrace l d).1 = l.map Prod.fst) ∨
      (∃ k d', k < l.length ∧
        runSteps ((l.map Prod.snd).take k) d = some (.ok d') ∧
        (¬ ∃ d'', ((l.map Prod.snd).getD k (fun x => some (.ok x))) d' = some (.ok d'')) ∧
        runSteps (l.map Prod.snd) d = ((l.map Prod.snd).getD k (fun x => some (.ok x))) d' ∧
        (runTrace l d).1 = (l.map Prod.fst).take (k + 1)) := by
  induction l with
  | nil => intro d; exact Or.inl ⟨⟨d, rfl⟩, rfl⟩
  | cons p rest ih =>
    obtain ⟨n, f⟩ := p
    intro d
    cases hf : f d with
    | none =>
      refine Or.inr ⟨0, d, by simp, rfl, ?_, ?_, ?_⟩
      · rintro ⟨d'', h⟩
        simp only [List.map_cons, List.getD_cons_zero] at h
        rw [hf] at h
        cases h
      · simp only [List.map_cons, List.getD_cons_zero, runSteps]
        rw [hf]
      · simp [runTrace, hf]
    | some r =>
      cases r with
      | error e =>
        refine Or.inr ⟨0, d, by simp, rfl, ?_, ?_, ?_⟩
        · rintro ⟨d'', h⟩
          simp only [List.map_cons, List.getD_cons_zero] at h
          rw [hf] at h
          cases h
        · simp only [List.map_cons, List.getD_cons_zero, runSteps]
          rw [hf]
        · simp [runTrace, hf]
      | ok d' =>
        have hrun : runSteps (((n, f) :: rest).map Prod.snd) d = runSteps (rest.map Prod.snd) d' := by
          simp only [List.map_cons, runSteps]
          rw [hf]
        have htr1 : (runTrace ((n, f) :: rest) d).1 = n :: (runTrace rest d').1 := by
          simp [runTrace, hf]
        rcases ih d' with ⟨⟨d'', hok⟩, htr⟩ | ⟨k, dk, hk, hpre, hfail, hres, htr⟩
        · left
          refine ⟨⟨d'', by rw [hrun]; exact hok⟩, ?_⟩
          rw [htr1, htr]
          simp
        · right
          refine ⟨k + 1, dk, by simpa using Nat.succ_lt_succ hk, ?_, ?_, ?_, ?_⟩
          · simp only [List.map_cons, List.take_succ_cons, runSteps]
            rw [hf]
            exact hpre
          · simpa using hfail
          · rw [hrun]
            simpa using hres
          · rw [htr1, htr]
            simp

/-- A run that produced a value stops at some fetch that satisfies the stop
condition. -/
theorem gdi_stops_of_some (evalInfo : Nat → Except Err Evaluation) :
    ∀ (fuel m : Nat) (d : Deployer) (r : Except Err (Deployer × Nat)),
      getDeploymentID evalInfo fuel m d = some r →
        ∃ k, k < fuel ∧ evalStops (evalInfo (m + k)) := by
  intro fuel
  induction fuel with
  | zero => intro m d r h; cases h
  | succ f ih =>
    intro m d r h
    cases he : evalInfo m with
    | error e =>
      exact ⟨0, Nat.succ_pos f, by rw [Nat.add_zero, he]; trivial⟩
    | ok ev =>
      by_cases h1 : ev.DeploymentID ≠ ""
      · exact ⟨0, Nat.succ_pos f, by rw [Nat.add_zero, he]; exact Or.inl h1⟩
      · by_cases h2 : ev.Status = "complete" ∧ ev.«Type» ≠ JobTypeService
        · exact ⟨0, Nat.succ_pos f, by rw [Nat.add_zero, he]; exact Or.inr h2⟩
        · have h' : getDeploymentID evalInfo f (m + 1) d = some r := by
            simp only [getDeploymentID, he, if_neg h1, if_neg h2] at h
            exact h
          obtain ⟨k, hk, hs⟩ := ih (m + 1) d r h'
          refine ⟨k + 1, Nat.succ_lt_succ hk, ?_⟩
          rw [show m + (k + 1) = m + 1 + k by omega]
          exact hs

/-- Result of the polling loop at the first stopping fetch: given that fetch
n stops and no earlier fetch does, any fuel beyond n yields exactly the
result of fetch n, after n one-second sleeps. -/
theorem gdi_first_stop (evalInfo : Nat → Except Err Evaluation) :
    ∀ (n m fuel : Nat) (d : Deployer),
      evalStops (evalInfo (m + n)) → (∀ j, j < n → ¬ evalStops (evalInfo (m + j))) →
      n < fuel →
      getDeploymentID evalInfo fuel m d = some (evalResultAt (evalInfo (m + n)) d (m + n)) := by
  intro n
  induction n with
  | zero =>
    intro m fuel d hstop _ hfuel
    obtain ⟨f, rfl⟩ : ∃ f, fuel = f + 1 := ⟨fuel - 1, by omega⟩
    rw [Nat.add_zero] at hstop ⊢
    cases he : evalInfo m with
    | error e => simp [getDeploymentID, he, evalResultAt]
    | ok ev =>
      rw [he] at hstop
      by_cases h1 : ev.DeploymentID ≠ ""
      · simp [getDeploymentID, he, evalResultAt, h1]
      · have h2 : ev.Status = "complete" ∧ ev.«Type» ≠ JobTypeService := by
          cases hstop with
          | inl h => exact absurd h h1
          | inr h => exact h
        simp [getDeploymentID, he, evalResultAt, h1, h2]
  | succ k ih =>
    intro m fuel d hstop hleast hfuel
    obtain ⟨f, rfl⟩ : ∃ f, fuel = f + 1 := ⟨fuel - 1, by omega⟩
    have hnot : ¬ evalStops (evalInfo m) := by
      have := hleast 0 (Nat.succ_pos k)
      rwa [Nat.add_zero] at this
    cases he : evalInfo m with
    | error e => exact absurd (by rw [he]; trivial) hnot
    | ok ev =>
      rw [he] at hnot
      have h1 : ¬ ev.DeploymentID ≠ "" := fun hh => hnot (Or.inl hh)
      have h2 : ¬ (ev.Status = "complete" ∧ ev.«Type» ≠ JobTypeService) := fun hh => hnot (Or.inr hh)
      simp only [getDeploymentID, he, if_neg h1, if_neg h2]
      rw [show m + (k + 1) = m + 1 + k by omega] at hstop ⊢
      exact ih (m + 1) f d hstop
        (fun j hj => by
          rw [show m + 1 + j = m + (j + 1) by omega]
          exact hleast (j + 1) (Nat.succ_lt_succ hj))
        (by omega)

/-- With no stopping fetch within the fuel bound, the loop is still running. -/
theorem gdi_none (evalInfo : Nat → Except Err Evaluation) :
    ∀ (fuel m : Nat) (d : Deployer),
      (∀ k, k < fuel → ¬ evalStops (evalInfo (m + k))) →
      getDeploymentID evalInfo fuel m d = none := by
  intro fuel
  induction fuel with
  | zero => intro m d _; rfl
  | succ f ih =>
    intro m d h
    have hnot : ¬ evalStops (evalInfo m) := by
      have := h 0 (Nat.succ_pos f)
      rwa [Nat.add_zero] at this
    cases he : evalInfo m with
    | error e => exact absurd (by rw [he]; trivial) hnot
    | ok ev =>
      rw [he] at hnot
      have h1 : ¬ ev.DeploymentID ≠ "" := fun hh => hnot (Or.inl hh)
      have h2 : ¬ (ev.Status = "complete" ∧ ev.«Type» ≠ JobTypeService) := fun hh => hnot (Or.inr hh)
      simp only [getDeploymentID, he, if_neg h1, if_neg h2]
      exact ih (m + 1) d (fun k hk => by
        rw [show m + 1 + k = m + (k + 1) by omega]
        exact h (k + 1) (Nat.succ_lt_succ hk))

/-- The merged job's task groups are the source groups mapped through the
override function; the constraint and region/datacenter edits do not touch
them. -/
theorem mergeJob_taskGroups (d : Deployer) :
    (mergeJob d).1.TaskGroups =
      d.job.TaskGroups.map (mergeTaskGroup d.service d.image (lookupService d.config d.service).Count) := by
  simp only [mergeJob, constrain, addDatacenter]
  split_ifs <;> rfl

/-- The merged config: the service's image entry is rewritten exactly when
some task group is named after the service and contains a task named after
the service. -/
theorem mergeJob_config (d : Deployer) :
    (mergeJob d).2 =
      if d.job.TaskGroups.any (groupTouchesImage d.service) then
        setServiceImage d.config d.service d.image
      else d.config := by
  simp only [mergeJob, constrain, addDatacenter]
  split_ifs <;> rfl

/-- C8: in validate, for the task group whose name equals the service name, a
configured count of 3 yields merged count 3, a configured count of 0 leaves
the job's original count unchanged; in general the override applies only when
the configured count is positive. -/
theorem validate_count_override (d : Deployer) (tg : TaskGroup)
    (htg : tg ∈ d.job.TaskGroups) (hname : tg.Name = d.service) :
    ∃ tg', tg' ∈ (mergeJob d).1.TaskGroups ∧ tg'.Name = tg.Name ∧
      tg'.Count = (if (lookupService d.config d.service).Count > 0
        then some (lookupService d.config d.service).Count else tg.Count) ∧
      ((lookupService d.config d.service).Count = 3 → tg'.Count = some 3) ∧
      ((lookupService d.config d.service).Count = 0 → tg'.Count = tg.Count) := by
  refine ⟨mergeTaskGroup d.service d.image (lookupService d.config d.service).Count tg, ?_, ?_, ?_, ?_, ?_⟩
  · rw [mergeJob_taskGroups]
    exact List.mem_map_of_mem _ htg
  · simp [mergeTaskGroup, hname]
  · simp [mergeTaskGroup, hname]
  · intro h3
    simp [mergeTaskGroup, hname, h3]
  · intro h0
    simp [mergeTaskGroup, hname, h0]

/-- C8 witness: with configured count 3 and a job-file count of 5, the merged
group for the service has count 3. -/
theorem validate_count_override_witness :
    ∃ tg', tg' ∈ (mergeJob dC8).1.TaskGroups ∧ tg'.Count = some 3 := by
  obtain ⟨tg', h1, _, _, h4, _⟩ :=
    validate_count_override dC8 ⟨"svc", some 5, []⟩ (by decide) (by decide)
  exact ⟨tg', h1, h4 (by decide)⟩

/-- C4 (amended): each of dcRegion, hostGroup, node produces, when non-empty,
exactly one equality constraint against its scheduler metadata key, and no
constraint when empty - appended at the job level (to the job's own
constraint list), independent of any task group. -/
theorem validate_constraints_job_level (d : Deployer) :
    (mergeJob d).1.Constraints =
      d.job.Constraints ++
        (if (lookupService d.config d.service).DcRegion ≠ "" then
          [NewConstraint "${meta.dc_region}" "=" (lookupService d.config d.service).DcRegion] else []) ++
        (if (lookupService d.config d.service).HostGroup ≠ "" then
          [NewConstraint "${meta.hostgroup}" "=" (lookupService d.config d.service).HostGroup] else []) ++
        (if (lookupService d.config d.service).Node ≠ "" then
          [NewConstraint "${meta.node}" "=" (lookupService d.config d.service).Node] else []) := by
  simp only [mergeJob, constrain, addDatacenter]
  split_ifs <;> simp

/-- C4 counterexample: the job of dC4 has no task group named after the
service, yet the non-empty hostGroup field still produces its placement
constraint (at the job level); so the constraints are not applied "only for
the task group whose name equals the service name". -/
theorem validate_constraints_without_matching_group :
    (mergeJob dC4).1.Constraints = [⟨"${meta.hostgroup}", "=", "app"⟩] ∧
    ∀ tg ∈ dC4.job.TaskGroups, tg.Name ≠ dC4.service := by
  constructor
  · decide
  · decide

/-- C5 (amended): for a job containing a task group named after the service
with a task named after the service, validate overwrites the image
unconditionally (whatever was configured before): the stored ServiceConfig's
image and the task's config "image" both become the deployed image. -/
theorem validate_image_overwrite (d : Deployer) (tg : TaskGroup) (ta : Task) (s0 : ServiceConfig)
    (hlook : List.lookup d.service d.config.Services = some s0)
    (htg : tg ∈ d.job.TaskGroups) (hname : tg.Name = d.service)
    (hta : ta ∈ tg.Tasks) (htname : ta.Name = d.service) :
    (List.lookup d.service (mergeJob d).2.Services).map ServiceConfig.Image = some d.image ∧
    ∃ tg', tg' ∈ (mergeJob d).1.TaskGroups ∧ tg'.Name = tg.Name ∧
      ∃ ta', ta' ∈ tg'.Tasks ∧ ta'.Name = ta.Name ∧
        List.lookup "image" ta'.Config = some d.image := by
  have hany : d.job.TaskGroups.any (groupTouchesImage d.service) = true := by
    rw [List.any_eq_true]
    refine ⟨tg, htg, ?_⟩
    have htasks : tg.Tasks.any (fun t => t.Name == d.service) = true := by
      rw [List.any_eq_true]
      exact ⟨ta, hta, by simp [htname]⟩
    simp [groupTouchesImage, hname, htasks]
  constructor
  · rw [mergeJob_config, if_pos hany, lookup_setServiceImage]
    simp [hlook]
  · refine ⟨mergeTaskGroup d.service d.image (lookupService d.config d.service).Count tg, ?_, ?_,
      mergeTask d.service d.image ta, ?_, ?_, ?_⟩
    · rw [mergeJob_taskGroups]
      exact List.mem_map_of_mem _ htg
    · simp [mergeTaskGroup, hname]
    · simp only [mergeTaskGroup, if_pos hname]
      exact List.mem_map_of_mem _ hta
    · simp [mergeTask, htname]
    · simp only [mergeTask, if_pos htname]
      exact lookup_mapSet ta.Config "image" d.image

/-- C5 witness: with the conventional group/task layout, deploying image
"new" over configured image "old" rewrites the stored config image to "new". -/
theorem validate_image_overwrite_witness :
    (List.lookup "svc" (mergeJob dC5w).2.Services).map ServiceConfig.Image = some "new" := by
  have h := (validate_image_overwrite dC5w ⟨"svc", none, [⟨"svc", [("image", "old")]⟩]⟩
    ⟨"svc", [("image", "old")]⟩ ⟨"old", 0, "", "", ""⟩ (by decide) (by decide) (by decide)
    (by decide) (by decide)).1
  exact h

/-- C5 counterexample: with no task group named after the service, validate
does not overwrite the stored ServiceConfig image: it stays "old" although
the deployed image is "new". -/
theorem validate_image_not_overwritten_without_matching_group :
    (List.lookup "svc" (mergeJob dC5).2.Services).map ServiceConfig.Image = some "old" ∧
    dC5.image = "new" := by
  constructor
  · decide
  · decide

/-- C1: plan captures the scheduler's JobModifyIndex, and register submits
the job with exactly that captured index as the enforced token; against a
scheduler enforcing the documented EnforceRegister contract with current
index `cur`, registration fails with the scheduler's error whenever `cur`
differs from the captured plan-time index, and only a matching index lets
registration proceed (to the evaluation poll). -/
theorem plan_register_enforces_modify_index
    (env : Env) (d : Deployer) (pr : PlanResp) (cur : Nat) (rr : RegisterResp) (e : Err) (fuel : Nat)
    (hplan : env.planJob d.job = .ok pr)
    (henf : env.enforceRegister = enforceRegisterSem cur rr e) :
    plan env d = .ok { d with jobModifyIndex := pr.JobModifyIndex } ∧
    (cur ≠ pr.JobModifyIndex →
      register env fuel { d with jobModifyIndex := pr.JobModifyIndex } = some (.error e)) ∧
    (cur = pr.JobModifyIndex →
      register env fuel { d with jobModifyIndex := pr.JobModifyIndex } =
        match getDeploymentID env.evalInfo fuel 0
            { d with jobModifyIndex := pr.JobModifyIndex, jobEvalID := rr.EvalID } with
        | none => none
        | some (.error e') => some (.error e')
        | some (.ok (d', _)) => some (.ok d')) := by
  refine ⟨?_, ?_, ?_⟩
  · simp [plan, hplan]
  · intro hne
    have : ¬ pr.JobModifyIndex = cur := fun hh => hne hh.symm
    simp [register, henf, enforceRegisterSem, this]
  · intro heq
    simp [register, henf, enforceRegisterSem, heq]

/-- C1 witness: a scheduler at current index 9 with a plan that captured
index 7 rejects the registration with its own error. -/
theorem plan_register_enforces_modify_index_witness :
    register envC1 5 { dAny with jobModifyIndex := 7 } = some (.error "conflict") :=
  (plan_register_enforces_modify_index envC1 dAny ⟨7⟩ 9 ⟨"eval-2"⟩ "conflict" 5 rfl rfl).2.1
    (by decide)

/-- C2: Go() runs exactly the six steps loadServiceConfig, connect, validate,
plan, register, status in that fixed order; either every step succeeds (and
then the run succeeds and all six names are in the trace), or there is a
first failing step: every step before it succeeded, its outcome is not a
success, Go returns that outcome unchanged, and no later step is started. -/
theorem go_six_steps_failfast (env : Env) (fr fs : Nat) (d : Deployer) :
    (goStepList env fr fs).map Prod.fst = goNames ∧
    (runTrace (goStepList env fr fs) d).2 = Go env fr fs d ∧
    (((∃ d', Go env fr fs d = some (.ok d')) ∧ (runTrace (goStepList env fr fs) d).1 = goNames) ∨
      (∃ k d', k < 6 ∧
        runSteps (((goStepList env fr fs).map Prod.snd).take k) d = some (.ok d') ∧
        (¬ ∃ d'', ((goStepList env fr fs).map Prod.snd).getD k (fun x => some (.ok x)) d' = some (.ok d'')) ∧
        Go env fr fs d = ((goStepList env fr fs).map Prod.snd).getD k (fun x => some (.ok x)) d' ∧
        (runTrace (goStepList env fr fs) d).1 = goNames.take (k + 1))) := by
  refine ⟨rfl, runTrace_result _ d, ?_⟩
  have h := runTrace_split (goStepList env fr fs) d
  have hnames : (goStepList env fr fs).map Prod.fst = goNames := rfl
  have hlen : (goStepList env fr fs).length = 6 := rfl
  rw [hnames, hlen] at h
  exact h

/-- C2 witness: the step list of Go() names the six steps in source order. -/
theorem go_six_steps_failfast_witness :
    (goStepList envAllOk 1 1).map Prod.fst = goNames :=
  (go_six_steps_failfast envAllOk 1 1 dAny).1

/-- C3 (amended): on a terminal status that is neither running nor
successful, status returns exactly one error carrying the status and the
status description, and prints the concatenated diagnostics to standard
output - the gathered allocation events when the allocation fetch succeeds,
nothing when that fetch errors; any event's non-empty driver error text is
contained in the printed diagnostics (not in the error message). -/
theorem status_failure_reports_and_prints (env : Env) (d : Deployer) (st ds : String)
    (meta : QueryMeta) (fuel : Nat)
    (hd : d.jobDeploymentID ≠ "")
    (hinfo : env.deploymentInfo 0 ⟨1, true, 5⟩ = .ok (⟨st, ds⟩, meta))
    (hr : st ≠ DeploymentStatusRunning) (hs : st ≠ DeploymentStatusSuccessful)
    (hfuel : 0 < fuel) :
    status env fuel d =
      some (failureDiagOutput env, .error ("deployment failed status: " ++ st ++ " " ++ ds)) ∧
    (∀ al, env.allocations = .ok al → failureDiagOutput env = allocsDiag al) ∧
    (∀ e', env.allocations = .error e' → failureDiagOutput env = "") ∧
    (∀ al a p ev, env.allocations = .ok al → a ∈ al → p ∈ a.TaskStates → ev ∈ p.2.Events →
      ev.DriverError ≠ "" → ev.DriverError.toList <:+: (allocsDiag al).toList) := by
  refine ⟨?_, ?_, ?_, ?_⟩
  · obtain ⟨f, rfl⟩ : ∃ f, fuel = f + 1 := ⟨fuel - 1, by omega⟩
    rw [status, if_neg hd]
    obtain ⟨li⟩ := meta
    exact statusLoop_fail_step env f 0 _ d st ds li hinfo hr hs
  · intro al hal
    simp [failureDiagOutput, hal]
  · intro e' hal
    simp [failureDiagOutput, hal]
  · intro al a p ev _ ha hp hev hdrv
    have hqual : eventHasError ev = true := by
      simp [eventHasError, hdrv]
    have h1 : (eventDiag ev).toList <:+: (taskStateDiag p.2).toList := by
      have hm := List.mem_map_of_mem (fun e => if eventHasError e then eventDiag e else "") hev
      simp only [hqual, if_true] at hm
      exact mem_infix_concatAll hm
    have h2 : (taskStateDiag p.2).toList <:+: (allocDiag a).toList := by
      have hm := List.mem_map_of_mem (fun q : String × TaskState => taskStateDiag q.2) hp
      exact mem_infix_concatAll hm
    have h3 : (allocDiag a).toList <:+: (allocsDiag al).toList := by
      have hm := List.mem_map_of_mem allocDiag ha
      exact mem_infix_concatAll hm
    exact ((driver_infix_eventDiag ev).trans h1).trans (h2.trans h3)

/-- C3 witness: with terminal status "failed", description "rolling back" and
one allocation event with driver error "boom", status prints "boom" and
returns the deployment-failure error. -/
theorem status_failure_reports_and_prints_witness :
    status envC3 1 dDep =
      some (failureDiagOutput envC3, .error ("deployment failed status: " ++ "failed" ++ " " ++ "rolling back")) ∧
    failureDiagOutput envC3 = "boom" := by
  have h := status_failure_reports_and_prints envC3 dDep "failed" "rolling back" ⟨10⟩ 1
    (by decide) rfl (by decide) (by decide) (by decide)
  refine ⟨h.1, ?_⟩
  have h2 := h.2.1 [⟨[("task1", ⟨[⟨"boom", "", "", "", ""⟩]⟩)]⟩] rfl
  rw [h2]
  decide

/-- C3 counterexample: at the same concrete input the returned error message
does not contain the driver error text "boom" (the diagnostics are printed,
not carried in the error), refuting the claim that the returned error
carries the concatenated diagnostics. -/
theorem status_error_lacks_driver_text :
    status envC3 1 dDep = some ("boom", .error "deployment failed status: failed rolling back") ∧
    ¬ ("boom".toList <:+: ("deployment failed status: failed rolling back").toList) := by
  constructor
  · decide
  · decide

/-- C6: the evaluation-polling loop entered by register terminates exactly
when some fetch stops it - it errors (surfaced as the result), carries a
deployment identifier (captured), or is "complete" with a non-service job
type (no capture); at the first such fetch n, any fuel beyond n yields
exactly that fetch's result after n one-second sleeps; with no stopping
fetch, no amount of fuel terminates the loop. -/
theorem getDeploymentID_termination (evalInfo : Nat → Except Err Evaluation) (d : Deployer) :
    ((∃ fuel r, getDeploymentID evalInfo fuel 0 d = some r) ↔ ∃ n, evalStops (evalInfo n)) ∧
    (∀ n fuel, evalStops (evalInfo n) → (∀ j, j < n → ¬ evalStops (evalInfo j)) → n < fuel →
      getDeploymentID evalInfo fuel 0 d = some (evalResultAt (evalInfo n) d n)) ∧
    (∀ fuel, (∀ n, ¬ evalStops (evalInfo n)) → getDeploymentID evalInfo fuel 0 d = none) := by
  refine ⟨⟨?_, ?_⟩, ?_, ?_⟩
  · rintro ⟨fuel, r, h⟩
    obtain ⟨k, _, hs⟩ := gdi_stops_of_some evalInfo fuel 0 d r h
    exact ⟨k, by simpa using hs⟩
  · rintro ⟨n, hn⟩
    have hex : ∃ n, evalStops (evalInfo n) := ⟨n, hn⟩
    refine ⟨Nat.find hex + 1, evalResultAt (evalInfo (Nat.find hex)) d (Nat.find hex), ?_⟩
    have h := gdi_first_stop evalInfo (Nat.find hex) 0 (Nat.find hex + 1) d
      (by simpa using Nat.find_spec hex)
      (fun j hj => by simpa using Nat.find_min hex hj)
      (by omega)
    simpa using h
  · intro n fuel h1 h2 h3
    have h := gdi_first_stop evalInfo n 0 fuel d (by simpa using h1)
      (fun j hj => by simpa using h2 j hj) h3
    simpa using h
  · intro fuel h
    exact gdi_none evalInfo fuel 0 d (fun k _ => by simpa using h k)

/-- C6 witness: two non-stopping fetches then a fetch carrying identifier
"dep1": with fuel 3 the loop stops at fetch 2, captures the identifier, and
slept twice. -/
theorem getDeploymentID_termination_witness :
    getDeploymentID evalInfoC6 3 0 dAny = some (.ok ({ dAny with jobDeploymentID := "dep1" }, 2)) := by
  have h := (getDeploymentID_termination evalInfoC6 dAny).2.1 2 3 (by decide) (by decide) (by decide)
  rw [h]
  decide

/-- C7: with no captured deployment identifier, status succeeds immediately
and issues no deployment query; otherwise, for reads running, running,
successful, status succeeds after the third read, issuing exactly the
initial query (WaitIndex 1, stale reads allowed, 5-second wait) and two
follow-up queries whose cursor is advanced to the last-seen index, each with
the same fixed 5-second wait and stale reads allowed. -/
theorem status_polling_spec (env : Env) (d : Deployer) (fuel : Nat) :
    (d.jobDeploymentID = "" → status env fuel d = some ("", .ok d) ∧ statusQueries env fuel d = []) ∧
    (∀ (l0 l1 l2 : Nat) (ds0 ds1 ds2 : String),
      d.jobDeploymentID ≠ "" →
      env.deploymentInfo 0 ⟨1, true, 5⟩ = .ok (⟨DeploymentStatusRunning, ds0⟩, ⟨l0⟩) →
      env.deploymentInfo 1 ⟨l0, true, 5⟩ = .ok (⟨DeploymentStatusRunning, ds1⟩, ⟨l1⟩) →
      env.deploymentInfo 2 ⟨l1, true, 5⟩ = .ok (⟨DeploymentStatusSuccessful, ds2⟩, ⟨l2⟩) →
      3 ≤ fuel →
      status env fuel d = some ("", .ok d) ∧
      statusQueries env fuel d = [⟨1, true, 5⟩, ⟨l0, true, 5⟩, ⟨l1, true, 5⟩]) := by
  constructor
  · intro h
    rw [status, statusQueries, if_pos h, if_pos h]
    exact ⟨rfl, rfl⟩
  · intro l0 l1 l2 ds0 ds1 ds2 hd h0 h1 h2 hfuel
    obtain ⟨k, rfl⟩ : ∃ k, fuel = k + 1 + 1 + 1 := ⟨fuel - 3, by omega⟩
    constructor
    · rw [status, if_neg hd]
      rw [statusLoop_running_step env (k + 1 + 1) 0 _ d ds0 l0 h0]
      rw [statusLoop_running_step env (k + 1) 1 _ d ds1 l1 h1]
      exact statusLoop_success_step env k 2 _ d ds2 l2 h2
    · rw [statusQueries, if_neg hd]
      rw [statusLoopQueries_running_step env (k + 1 + 1) 0 _ ds0 l0 h0]
      rw [statusLoopQueries_running_step env (k + 1) 1 _ ds1 l1 h1]
      rw [statusLoopQueries_stop_step env k 2 _ DeploymentStatusSuccessful ds2 l2 h2 (by decide)]

/-- C7 witness: against reads running (LastIndex 40), running (LastIndex 41),
successful, status succeeds and the three issued queries are the initial one
and two cursor-advanced follow-ups. -/
theorem status_polling_spec_witness :
    status envC7 3 dDep = some ("", .ok dDep) ∧
    statusQueries envC7 3 dDep = [⟨1, true, 5⟩, ⟨40, true, 5⟩, ⟨41, true, 5⟩] :=
  (status_polling_spec envC7 dDep 3).2 40 41 50 "d0" "d1" "d2"
    (by decide) rfl rfl rfl (by decide)

/-- C9: loadServiceConfig parses the "service" job-set path first and only on
its failure falls back to the "system" path (a successful service-path parse
decides the result regardless of the system path); with both parses failing
it fails (with the second parse error); and it succeeds exactly when some
job file parsed (service-path first) and the service is present in the
datacenter's config map, storing the parsed job in the deployer. -/
theorem loadServiceConfig_spec (env : Env) (d : Deployer) :
    (∀ job, env.parseFile (servicePath d) = .ok job →
      loadServiceConfig env d =
        match checkServiceConfig { d with job := job } with
        | .error e => .error e
        | .ok _ => .ok { d with job := job }) ∧
    (∀ e job, env.parseFile (servicePath d) = .error e → env.parseFile (systemPath d) = .ok job →
      loadServiceConfig env d =
        match checkServiceConfig { d with job := job } with
        | .error e' => .error e'
        | .ok _ => .ok { d with job := job }) ∧
    (∀ e e', env.parseFile (servicePath d) = .error e → env.parseFile (systemPath d) = .error e' →
      loadServiceConfig env d = .error e') ∧
    (∀ d', loadServiceConfig env d = .ok d' ↔
      ∃ job, d' = { d with job := job } ∧
        (List.lookup d.service d.config.Services).isSome = true ∧
        (env.parseFile (servicePath d) = .ok job ∨
          ((∃ e, env.parseFile (servicePath d) = .error e) ∧
            env.parseFile (systemPath d) = .ok job))) := by
  refine ⟨?_, ?_, ?_, ?_⟩
  · intro job h
    simp [loadServiceConfig, h]
  · intro e job h1 h2
    simp [loadServiceConfig, h1, h2]
  · intro e e' h1 h2
    simp [loadServiceConfig, h1, h2]
  · intro d'
    constructor
    · intro h
      cases hs : env.parseFile (servicePath d) with
      | ok job =>
        simp only [loadServiceConfig, hs] at h
        cases hc : checkServiceConfig { d with job := job } with
        | error e => simp only [hc] at h; cases h
        | ok u =>
          simp only [hc] at h
          cases h
          refine ⟨job, rfl, ?_, Or.inl rfl⟩
          unfold checkServiceConfig at hc
          cases hl : List.lookup d.service d.config.Services with
          | none => rw [hl] at hc; cases hc
          | some s => simp
      | error es =>
        simp only [loadServiceConfig, hs] at h
        cases hy : env.parseFile (systemPath d) with
        | error e' => simp only [hy] at h; cases h
        | ok job =>
          simp only [hy] at h
          cases hc : checkServiceConfig { d with job := job } with
          | error e => simp only [hc] at h; cases h
          | ok u =>
            simp only [hc] at h
            cases h
            refine ⟨job, rfl, ?_, Or.inr ⟨⟨es, rfl⟩, rfl⟩⟩
            unfold checkServiceConfig at hc
            cases hl : List.lookup d.service d.config.Services with
            | none => rw [hl] at hc; cases hc
            | some s => simp
    · rintro ⟨job, rfl, hsome, hcase⟩
      have hc : checkServiceConfig { d with job := job } = .ok () := by
        unfold checkServiceConfig
        cases hl : List.lookup d.service d.config.Services with
        | none => rw [hl] at hsome; cases hsome
        | some s => rfl
      rcases hcase with hok | ⟨⟨e, herr⟩, hsys⟩
      · simp only [loadServiceConfig, hok, hc]
      · simp only [loadServiceConfig, herr, hsys, hc]

/-- C9 witness: with only the service job-set file present and the service in
the datacenter config, loadServiceConfig succeeds and stores the parsed job. -/
theorem loadServiceConfig_spec_witness :
    loadServiceConfig envC9 dAny = .ok { dAny with job := jobZero } := by
  have h := (loadServiceConfig_spec envC9 dAny).1 jobZero (by decide)
  rw [h]
  decide

/-- C10 (amended): for every service absent from the datacenter config map,
checkServiceConfig returns a non-nil error whose message renders the %d verb
applied to the string name as the mis-format artifact %!d(string=<name>)
(so the name appears only embedded in that artifact, never via a string
verb); the artifact is always contained in the message. -/
theorem checkServiceConfig_misformat (d : Deployer)
    (h : List.lookup d.service d.config.Services = none) :
    checkServiceConfig d =
      .error ("service " ++ "%!d(string=" ++ d.service ++ ")" ++ " not found in datacenter config") ∧
    ("%!d(string=" ++ d.service ++ ")").toList <:+:
      ("service " ++ "%!d(string=" ++ d.service ++ ")" ++ " not found in datacenter config").toList := by
  refine ⟨by rw [checkServiceConfig, h], ?_⟩
  refine ⟨"service ".toList, " not found in datacenter config".toList, ?_⟩
  simp

/-- C10 witness: for the concrete absent service "svc" the error message is
the mis-formatted one. -/
theorem checkServiceConfig_misformat_witness :
    checkServiceConfig dC10 =
      .error ("service " ++ "%!d(string=" ++ "svc" ++ ")" ++ " not found in datacenter config") :=
  (checkServiceConfig_misformat dC10 (by decide)).1

/-- C10 counterexample: the error message for absent service "svc" does
contain the service name verbatim (inside the artifact), refuting "the
returned error message never contains the service name verbatim". -/
theorem checkServiceConfig_message_contains_name :
    checkServiceConfig dC10 = .error "service %!d(string=svc) not found in datacenter config" ∧
    "svc".toList <:+: ("service %!d(string=svc) not found in datacenter config").toList := by
  constructor
  · decide
  · decide

end Deploy
